import Mathlib

/-!
Verification development for the chat subsystem of the pets-backend
repository.  The TypeScript sources are shallowly embedded: each Lean
definition mirrors one source function (ConversationRepository,
MessageRepository, encryption utilities, ChatService), with the two
persistence stores modelled as explicit lists inside a `ChatState`
record and wall-clock timestamps passed in as explicit `Nat` arguments.
JS strings holding message content are modelled as `List Char`; user
identifiers stay `String` (sorted by the lexicographic order, as JS
`Array.sort` does); generated row ids are `Nat` counters.
-/

namespace PetsBackend

/-- The closed message-type enum from `entities/MessageMetadata.ts`. -/
inductive MessageType where
  | text
  | image
  | video
  | file
deriving DecidableEq, Repr

instance : BEq MessageType := ⟨fun a b => decide (a = b)⟩

/-- Error outcomes of the chat code, one constructor per distinct
`throw new Error(...)` site reached by the modelled operations. -/
inductive ChatError where
  | blockedConversation
  | emptyContent
  | tooLong
  | notFound
  | unauthorized
  | decryptionFailed
deriving DecidableEq, Repr

/-- Row of the `conversations` table (`entities/Conversation.ts`). -/
structure Conversation where
  id : Nat
  participant1Id : String
  participant2Id : String
  lastMessageAt : Option Nat
  lastMessagePreview : Option (List Char)
  isBlocked : Bool
  blockedBy : Option String
deriving DecidableEq, Repr

/-- Document of the MongoDB `messages` collection
(`model/messageSchema.ts`). -/
structure MongoMessage where
  mongoId : Nat
  conversationId : Nat
  senderId : String
  receiverId : String
  messageType : MessageType
  encryptedContent : Option (List Nat)
  mediaUrl : Option String
  mediaType : Option String
  mediaSize : Option Nat
  fileName : Option String
  thumbnailUrl : Option String
  replyToMessageId : Option String
  createdAt : Nat
deriving DecidableEq, Repr

/-- Row of the `message_metadata` table (`entities/MessageMetadata.ts`). -/
structure MessageMetadata where
  id : Nat
  conversationId : Nat
  mongoMessageId : Nat
  senderId : String
  receiverId : String
  messageType : MessageType
  isDelivered : Bool
  isRead : Bool
  deliveredAt : Option Nat
  readAt : Option Nat
  isDeleted : Bool
  createdAt : Nat
deriving DecidableEq, Repr

/-- Combined persistent state: the `conversations` table, the MongoDB
`messages` collection and the `message_metadata` table, each with the
counter generating its next primary key. -/
structure ChatState where
  conversations : List Conversation
  nextConvId : Nat
  mongoMessages : List MongoMessage
  nextMongoId : Nat
  metadata : List MessageMetadata
  nextMetaId : Nat
deriving DecidableEq, Repr

/-! ## Encryption utilities (`utils/encryption.ts`) -/

/-- `MAX_MESSAGE_LENGTH` inside `validateMessageContent`. -/
def MAX_MESSAGE_LENGTH : Nat := 5000

/-- The whitespace set JS `String.prototype.trim` strips: the
WhiteSpace characters (TAB, VT, FF, SP, NBSP, ZWNBSP and the Unicode
Zs space separators) plus the LineTerminator characters (LF, CR, LS,
PS). -/
def isJsWhitespace (c : Char) : Bool :=
  c.toNat = 0x9 || c.toNat = 0xA || c.toNat = 0xB || c.toNat = 0xC ||
  c.toNat = 0xD || c.toNat = 0x20 || c.toNat = 0xA0 || c.toNat = 0x1680 ||
  (0x2000 ≤ c.toNat && c.toNat ≤ 0x200A) ||
  c.toNat = 0x2028 || c.toNat = 0x2029 || c.toNat = 0x202F ||
  c.toNat = 0x205F || c.toNat = 0x3000 || c.toNat = 0xFEFF

/-- Model of JS `String.prototype.trim` (strip whitespace at both ends). -/
def jsTrim (s : List Char) : List Char :=
  ((s.dropWhile isJsWhitespace).reverse.dropWhile isJsWhitespace).reverse

/-- `validateMessageContent`: throws on empty/whitespace-only content,
then on content longer than `MAX_MESSAGE_LENGTH`. -/
def validateMessageContent (content : List Char) : Except ChatError Bool :=
  if content.isEmpty || (jsTrim content).isEmpty then
    Except.error ChatError.emptyContent
  else if content.length > MAX_MESSAGE_LENGTH then
    Except.error ChatError.tooLong
  else
    Except.ok true

/-- JS `String.prototype.replace` with a single-character global
pattern: every occurrence of `c` is replaced by `rep`. -/
def replaceAll (c : Char) (rep : List Char) : List Char → List Char
  | [] => []
  | x :: xs => (if x = c then rep else [x]) ++ replaceAll c rep xs

/-- The double-quote character, written via its code point. -/
def quotChar : Char := Char.ofNat 34

/-- The apostrophe character, written via its code point. -/
def aposChar : Char := Char.ofNat 39

/-- `sanitizeMessageContent`: the five sequential global replaces from
the source, in source order (`<`, `>`, `"`, apostrophe, `/`). -/
def sanitizeMessageContent (content : List Char) : List Char :=
  replaceAll '/' ("&#x2F;".toList)
    (replaceAll aposChar ("&#x27;".toList)
      (replaceAll quotChar ("&quot;".toList)
        (replaceAll '>' ("&gt;".toList)
          (replaceAll '<' ("&lt;".toList) content))))

/-- Code points form half-open range `[0, 0x110000)`; used as the modulus
of the modelled cipher so that every `Char.toNat` is a valid symbol. -/
def charRadix : Nat := 1114112

/-- Modelled from the spec: the symmetric cipher itself lives in the
external crypto library (CryptoJS AES) and is not part of this
repository's sources.  Following §4.3 of the spec ("symmetric
encrypt/decrypt of message text bodies; stateless, keyed by a
process-wide secret"), it is modelled as a keyed stream cipher: a
keystream value per position, mixed with the plaintext symbol modulo
`charRadix`. -/
def keystream (key salt i : Nat) : Nat := (key + salt * 131 + i * 17) % charRadix

/-- Modelled from the spec: body encoder of the cipher (see `keystream`). -/
def encodeBody (key salt : Nat) : Nat → List Nat → List Nat
  | _, [] => []
  | i, b :: bs => (b + keystream key salt i) % charRadix :: encodeBody key salt (i + 1) bs

/-- Modelled from the spec: body decoder, inverse of `encodeBody`. -/
def decodeBody (key salt : Nat) : Nat → List Nat → List Nat
  | _, [] => []
  | i, e :: es => (e + (charRadix - keystream key salt i)) % charRadix :: decodeBody key salt (i + 1) es

/-- Modelled from the spec: ciphertext layout `salt :: key-tag :: body`,
mirroring the salted format the library emits (the salt/IV is stored in
the ciphertext; the tag models key agreement checking at decrypt). -/
def cipherEncrypt (key salt : Nat) (m : List Nat) : List Nat :=
  salt :: key % 256 :: encodeBody key salt 0 m

/-- Modelled from the spec: decryption of the cipher; fails on
malformed ciphertext or a key tag mismatch (wrong key). -/
def cipherDecrypt (key : Nat) : List Nat → Option (List Nat)
  | salt :: tag :: body =>
      if tag = key % 256 then some (decodeBody key salt 0 body) else none
  | _ => none

/-- Modelled from the spec: the process-wide secret
(`CHAT_ENCRYPTION_KEY` / the default key), an arbitrary fixed value. -/
def ENCRYPTION_KEY : Nat := 177

/-- Return shape of `encryptMessage`: the ciphertext plus the unused
`iv` field the source fills with fresh randomness. -/
structure EncryptedData where
  encrypted : List Nat
  iv : Nat
deriving DecidableEq, Repr

/-- `encryptMessage`: encrypt the plaintext under the process-wide key.
`salt` stands for the randomness the library draws per call. -/
def encryptMessage (salt iv : Nat) (plaintext : List Char) : EncryptedData :=
  { encrypted := cipherEncrypt ENCRYPTION_KEY salt (plaintext.map Char.toNat)
    iv := iv }

/-- `decryptMessage`: decrypt under the process-wide key; any cipher
failure, and also a decryption result that is the empty string (the
explicit `if (!decrypted) throw` in the source), surfaces as a
`decryptionFailed` error. -/
def decryptMessage (encrypted : List Nat) : Except ChatError (List Char) :=
  match cipherDecrypt ENCRYPTION_KEY encrypted with
  | none => Except.error ChatError.decryptionFailed
  | some bytes =>
      if bytes.isEmpty then Except.error ChatError.decryptionFailed
      else Except.ok (bytes.map Char.ofNat)

/-! ## ConversationRepository (`repository/ConversationRepository.ts`) -/

/-- The TypeORM `findOne` predicate of `findOrCreateConversation`: a row
matches if its ordered participant pair equals `(pa, pb)` in either
orientation. -/
def matchesPair (pa pb : String) (c : Conversation) : Bool :=
  (c.participant1Id == pa && c.participant2Id == pb) ||
  (c.participant1Id == pb && c.participant2Id == pa)

/-- Body of `findOrCreateConversation` once the participant pair has
been sorted: looks an existing row up by either orientation of the
pair, and otherwise creates and saves a new row carrying the pair and
the default column values. -/
def findOrCreateSorted (st : ChatState) (participantA participantB : String) :
    Conversation × ChatState :=
  match st.conversations.find? (matchesPair participantA participantB) with
  | some conversation => (conversation, st)
  | none =>
      let conversation : Conversation :=
        { id := st.nextConvId
          participant1Id := participantA
          participant2Id := participantB
          lastMessageAt := none
          lastMessagePreview := none
          isBlocked := false
          blockedBy := none }
      (conversation,
        { st with
            conversations := st.conversations ++ [conversation]
            nextConvId := st.nextConvId + 1 })

/-- `findOrCreateConversation`: sorts the two user ids (JS
`[user1Id, user2Id].sort()` compares strings lexicographically) and
proceeds with the sorted pair. -/
def findOrCreateConversation (st : ChatState) (user1Id user2Id : String) :
    Conversation × ChatState :=
  findOrCreateSorted st
    (if user1Id ≤ user2Id then user1Id else user2Id)
    (if user1Id ≤ user2Id then user2Id else user1Id)

/-- `updateLastMessage`: sets the preview (truncated to 500 characters,
`preview.substring(0, 500)`) and the last-message timestamp on the row
with the given id. -/
def updateLastMessage (st : ChatState) (conversationId : Nat)
    (preview : List Char) (timestamp : Nat) : ChatState :=
  { st with
      conversations := st.conversations.map fun c =>
        if c.id == conversationId then
          { c with
              lastMessagePreview := some (preview.take 500)
              lastMessageAt := some timestamp }
        else c }

/-- `blockConversation`: sets the blocked flag and the blocker id. -/
def blockConversation (st : ChatState) (conversationId : Nat) (userId : String) :
    ChatState :=
  { st with
      conversations := st.conversations.map fun c =>
        if c.id == conversationId then
          { c with isBlocked := true, blockedBy := some userId }
        else c }

/-- `unblockConversation`: clears the blocked flag and the blocker id. -/
def unblockConversation (st : ChatState) (conversationId : Nat) : ChatState :=
  { st with
      conversations := st.conversations.map fun c =>
        if c.id == conversationId then
          { c with isBlocked := false, blockedBy := none }
        else c }

/-- `isConversationBlocked`: reads the row's blocked flag
(`conversation?.isBlocked || false`).  The whole body is wrapped in
`try/catch` and the catch branch returns `false`; `readFails` injects
that storage-failure path. -/
def isConversationBlocked (st : ChatState) (conversationId : Nat)
    (readFails : Bool) : Bool :=
  if readFails then false
  else
    match st.conversations.find? (fun c => c.id == conversationId) with
    | some conversation => conversation.isBlocked
    | none => false

/-! ## MessageRepository (`repository/MessageRepository.ts`) -/

/-- The `CreateMessageData` interface. -/
structure CreateMessageData where
  conversationId : Nat
  senderId : String
  receiverId : String
  messageType : MessageType
  encryptedContent : Option (List Nat)
  mediaUrl : Option String
  mediaType : Option String
  mediaSize : Option Nat
  fileName : Option String
  thumbnailUrl : Option String
  replyToMessageId : Option String
deriving DecidableEq, Repr

/-- `createMessage`: saves the MongoDB document first, then the
metadata row referencing the document's generated id. -/
def createMessage (st : ChatState) (now : Nat) (data : CreateMessageData) :
    (MongoMessage × MessageMetadata) × ChatState :=
  let mongoMessage : MongoMessage :=
    { mongoId := st.nextMongoId
      conversationId := data.conversationId
      senderId := data.senderId
      receiverId := data.receiverId
      messageType := data.messageType
      encryptedContent := data.encryptedContent
      mediaUrl := data.mediaUrl
      mediaType := data.mediaType
      mediaSize := data.mediaSize
      fileName := data.fileName
      thumbnailUrl := data.thumbnailUrl
      replyToMessageId := data.replyToMessageId
      createdAt := now }
  let metadata : MessageMetadata :=
    { id := st.nextMetaId
      conversationId := data.conversationId
      mongoMessageId := mongoMessage.mongoId
      senderId := data.senderId
      receiverId := data.receiverId
      messageType := data.messageType
      isDelivered := false
      isRead := false
      deliveredAt := none
      readAt := none
      isDeleted := false
      createdAt := now }
  ((mongoMessage, metadata),
    { st with
        mongoMessages := st.mongoMessages ++ [mongoMessage]
        nextMongoId := st.nextMongoId + 1
        metadata := st.metadata ++ [metadata]
        nextMetaId := st.nextMetaId + 1 })

/-- Insertion step of the `createdAt DESC` ordering used by
`getMessagesByConversation`. -/
def insertByCreatedAtDesc (m : MessageMetadata) :
    List MessageMetadata → List MessageMetadata
  | [] => [m]
  | x :: xs =>
      if m.createdAt ≤ x.createdAt then x :: insertByCreatedAtDesc m xs
      else m :: x :: xs

/-- `order: { createdAt: "DESC" }` over a metadata list. -/
def sortByCreatedAtDesc : List MessageMetadata → List MessageMetadata
  | [] => []
  | x :: xs => insertByCreatedAtDesc x (sortByCreatedAtDesc xs)

/-- `getMessagesByConversation`: pages over non-deleted metadata of the
conversation ordered by `createdAt` descending (`skip = (page-1)*limit`),
resolves each row's MongoDB document, silently dropping rows whose
document is missing, and returns the page plus the total row count of
the `findAndCount` filter. -/
def getMessagesByConversation (st : ChatState) (conversationId : Nat)
    (page limit : Nat) :
    List (MongoMessage × MessageMetadata) × Nat :=
  let skip := (page - 1) * limit
  let filtered := st.metadata.filter fun m =>
    m.conversationId == conversationId && m.isDeleted == false
  let metadataList := ((sortByCreatedAtDesc filtered).drop skip).take limit
  let messagesWithMetadata := metadataList.filterMap fun metadata =>
    match st.mongoMessages.find? (fun m => m.mongoId == metadata.mongoMessageId) with
    | some message => some (message, metadata)
    | none => none
  (messagesWithMetadata, filtered.length)

/-- `markAsDelivered`: TypeORM `update(messageId, { isDelivered: true,
deliveredAt: new Date() })` — unconditionally sets the flag and
overwrites the timestamp with the current time on the matching row. -/
def markAsDelivered (st : ChatState) (messageId : Nat) (now : Nat) : ChatState :=
  { st with
      metadata := st.metadata.map fun m =>
        if m.id == messageId then
          { m with isDelivered := true, deliveredAt := some now }
        else m }

/-- `markAsRead`: bulk `update(messageIds, { isRead: true, readAt:
new Date() })` over the listed metadata ids. -/
def markAsRead (st : ChatState) (messageIds : List Nat) (now : Nat) : ChatState :=
  { st with
      metadata := st.metadata.map fun m =>
        if messageIds.contains m.id then
          { m with isRead := true, readAt := some now }
        else m }

/-- `deleteMessage` (soft delete): loads the row, fails with a
not-found error when absent, with an unauthorized error when the
requester is not the stored sender, and otherwise sets the deleted
flag; the row is never removed. -/
def deleteMessage (st : ChatState) (messageId : Nat) (userId : String) :
    Except ChatError ChatState :=
  match st.metadata.find? (fun m => m.id == messageId) with
  | none => Except.error ChatError.notFound
  | some metadata =>
      if metadata.senderId ≠ userId then Except.error ChatError.unauthorized
      else
        Except.ok
          { st with
              metadata := st.metadata.map fun m =>
                if m.id == messageId then { m with isDeleted := true } else m }

/-- The `where` object `getUnreadCount` assembles before counting. -/
structure UnreadWhere where
  receiverId : String
  isRead : Bool
  isDeleted : Bool
  conversationId : Option Nat
deriving DecidableEq, Repr

/-- Builds the `where` object: fixed receiver/read/deleted conditions,
plus the conversation condition only when one was supplied. -/
def buildUnreadWhere (userId : String) (conversationId : Option Nat) : UnreadWhere :=
  { receiverId := userId
    isRead := false
    isDeleted := false
    conversationId := conversationId }

/-- Row match against the assembled `where` object. -/
def matchesUnreadWhere (w : UnreadWhere) (m : MessageMetadata) : Bool :=
  m.receiverId == w.receiverId && m.isRead == w.isRead &&
  m.isDeleted == w.isDeleted &&
  (match w.conversationId with
   | some cid => m.conversationId == cid
   | none => true)

/-- `getUnreadCount`: `count({ where })` over the metadata table. -/
def getUnreadCount (st : ChatState) (userId : String)
    (conversationId : Option Nat) : Nat :=
  (st.metadata.filter (matchesUnreadWhere (buildUnreadWhere userId conversationId))).length

/-! ## ChatService (`service/chat.service.ts`) -/

/-- The `SendMessageParams` interface.  Optional JS string fields are
`Option`; `content` is the raw text body. -/
structure SendMessageParams where
  senderId : String
  receiverId : String
  messageType : MessageType
  content : Option (List Char)
  mediaUrl : Option String
  mediaType : Option String
  mediaSize : Option Nat
  fileName : Option String
  thumbnailUrl : Option String
  replyToMessageId : Option String
deriving DecidableEq, Repr

/-- The `MessageWithMetadata` result shape. -/
structure MessageWithMetadata where
  id : Nat
  conversationId : Nat
  senderId : String
  receiverId : String
  messageType : MessageType
  content : Option (List Char)
  mediaUrl : Option String
  mediaType : Option String
  mediaSize : Option Nat
  fileName : Option String
  thumbnailUrl : Option String
  replyToMessageId : Option String
  isDelivered : Bool
  isRead : Bool
  deliveredAt : Option Nat
  readAt : Option Nat
  createdAt : Nat
deriving DecidableEq, Repr

/-- The placeholder substituted for a text body that fails to decrypt. -/
def PLACEHOLDER : List Char := "[Encrypted message]".toList

/-- `formatMessage`: builds the outward message view; a present,
non-empty encrypted body of a text message is decrypted, with a
decryption failure caught and replaced by the placeholder (the JS guard
`message.encryptedContent && message.messageType === "text"` treats an
absent or empty-string body as falsy). -/
def formatMessage (message : MongoMessage) (metadata : MessageMetadata) :
    MessageWithMetadata :=
  let content : Option (List Char) :=
    match message.encryptedContent, message.messageType with
    | some enc, MessageType.text =>
        if enc.isEmpty then none
        else
          match decryptMessage enc with
          | Except.ok c => some c
          | Except.error _ => some PLACEHOLDER
    | _, _ => none
  { id := metadata.id
    conversationId := metadata.conversationId
    senderId := metadata.senderId
    receiverId := metadata.receiverId
    messageType := metadata.messageType
    content := content
    mediaUrl := message.mediaUrl
    mediaType := message.mediaType
    mediaSize := message.mediaSize
    fileName := message.fileName
    thumbnailUrl := message.thumbnailUrl
    replyToMessageId := message.replyToMessageId
    isDelivered := metadata.isDelivered
    isRead := metadata.isRead
    deliveredAt := metadata.deliveredAt
    readAt := metadata.readAt
    createdAt := metadata.createdAt }

/-- `generateMessagePreview`: text takes the first 100 characters of
the content (empty when absent, `params.content?.substring(0, 100) ||
""`); media types map to fixed labels. -/
def generateMessagePreview (params : SendMessageParams) : List Char :=
  match params.messageType with
  | MessageType.text => (params.content.getD []).take 100
  | MessageType.image => "📷 Image".toList
  | MessageType.video => "🎥 Video".toList
  | MessageType.file =>
      "📎 ".toList ++ ((params.fileName.map String.toList).getD ("File".toList))

/-- The `if (params.content && params.messageType === MessageType.TEXT)`
block of `sendMessage`: validates, sanitizes and encrypts the text body.
An absent or empty (JS-falsy) content skips the block entirely. -/
def encryptStep (salt iv : Nat) (params : SendMessageParams) :
    Except ChatError (Option (List Nat)) :=
  match params.content with
  | none => Except.ok none
  | some c =>
      if c ≠ [] ∧ params.messageType = MessageType.text then
        match validateMessageContent c with
        | Except.error e => Except.error e
        | Except.ok _ =>
            Except.ok (some (encryptMessage salt iv (sanitizeMessageContent c)).encrypted)
      else Except.ok none

/-- `sendMessage`: resolve-or-create the conversation, reject when the
blocked check reports blocked, validate/sanitize/encrypt a text body,
persist through `createMessage`, update the conversation preview with
the metadata's creation timestamp, and return the formatted message.
`now` is the clock, `salt`/`iv` the randomness drawn by the codec, and
`blockedReadFails` injects a storage failure into the blocked-flag read.
State mutations performed before a failure persist, as they do in the
source, so the resulting state is returned alongside the outcome. -/
def sendMessage (st : ChatState) (now salt iv : Nat) (blockedReadFails : Bool)
    (params : SendMessageParams) :
    Except ChatError MessageWithMetadata × ChatState :=
  let fc := findOrCreateConversation st params.senderId params.receiverId
  let conversation := fc.1
  let st1 := fc.2
  if isConversationBlocked st1 conversation.id blockedReadFails then
    (Except.error ChatError.blockedConversation, st1)
  else
    match encryptStep salt iv params with
    | Except.error e => (Except.error e, st1)
    | Except.ok encryptedContent =>
        let messageData : CreateMessageData :=
          { conversationId := conversation.id
            senderId := params.senderId
            receiverId := params.receiverId
            messageType := params.messageType
            encryptedContent := encryptedContent
            mediaUrl := params.mediaUrl
            mediaType := params.mediaType
            mediaSize := params.mediaSize
            fileName := params.fileName
            thumbnailUrl := params.thumbnailUrl
            replyToMessageId := params.replyToMessageId }
        let cr := createMessage st1 now messageData
        let message := cr.1.1
        let metadata := cr.1.2
        let st2 := cr.2
        let preview := generateMessagePreview params
        let st3 := updateLastMessage st2 conversation.id preview metadata.createdAt
        (Except.ok (formatMessage message metadata), st3)

/-- `getConversationHistory`: delegates to `getMessagesByConversation`
and formats (decrypting per message) every returned pair. -/
def getConversationHistory (st : ChatState) (conversationId : Nat)
    (page limit : Nat) : List MessageWithMetadata × Nat :=
  let fetched := getMessagesByConversation st conversationId page limit
  (fetched.1.map fun p => formatMessage p.1 p.2, fetched.2)

/-! ## Concrete fixtures used by witnesses and counterexamples -/

/-- A user id. -/
def alice : String := "alice"

/-- A user id. -/
def bob : String := "bob"

/-- A media URL. -/
def httpUrl : String := "http://cdn.example/pic.png"

/-- Empty persistent state. -/
def stE : ChatState :=
  { conversations := []
    nextConvId := 0
    mongoMessages := []
    nextMongoId := 0
    metadata := []
    nextMetaId := 0 }

/-- A conversation between `alice` and `bob` that `alice` has blocked. -/
def convBlocked : Conversation :=
  { id := 0
    participant1Id := alice
    participant2Id := bob
    lastMessageAt := none
    lastMessagePreview := none
    isBlocked := true
    blockedBy := some alice }

/-- State holding only the blocked conversation. -/
def stBlocked : ChatState := { stE with conversations := [convBlocked], nextConvId := 1 }

/-- A plain text send from `bob` to `alice`. -/
def textParams : SendMessageParams :=
  { senderId := bob
    receiverId := alice
    messageType := MessageType.text
    content := some ("hi".toList)
    mediaUrl := none
    mediaType := none
    mediaSize := none
    fileName := none
    thumbnailUrl := none
    replyToMessageId := none }

/-! ## C1: conversation resolution is symmetric and pair-unique -/

/-- Unordered-pair equality of two conversation rows. -/
def samePairb (c d : Conversation) : Bool :=
  (c.participant1Id == d.participant1Id && c.participant2Id == d.participant2Id) ||
  (c.participant1Id == d.participant2Id && c.participant2Id == d.participant1Id)

/-- At most one conversation row per unordered participant pair. -/
def uniquePairs (l : List Conversation) : Prop :=
  l.Pairwise (fun c d => samePairb c d = false)

instance (l : List Conversation) : Decidable (uniquePairs l) := by
  unfold uniquePairs
  infer_instance

lemma sortedFst_comm (a b : String) :
    (if a ≤ b then a else b) = (if b ≤ a then b else a) := by
  by_cases h1 : a ≤ b
  · by_cases h2 : b ≤ a
    · rw [if_pos h1, if_pos h2]
      exact le_antisymm h1 h2
    · rw [if_pos h1, if_neg h2]
  · have h2 : b ≤ a := (le_total a b).resolve_left h1
    rw [if_neg h1, if_pos h2]

lemma sortedSnd_comm (a b : String) :
    (if a ≤ b then b else a) = (if b ≤ a then a else b) := by
  by_cases h1 : a ≤ b
  · by_cases h2 : b ≤ a
    · rw [if_pos h1, if_pos h2]
      exact le_antisymm h2 h1
    · rw [if_pos h1, if_neg h2]
  · have h2 : b ≤ a := (le_total a b).resolve_left h1
    rw [if_neg h1, if_pos h2]

lemma uniquePairs_findOrCreateSorted (st : ChatState) (pa pb : String)
    (h : uniquePairs st.conversations) :
    uniquePairs (findOrCreateSorted st pa pb).2.conversations := by
  rcases hf : st.conversations.find? (matchesPair pa pb) with _ | c
  · have hall := List.find?_eq_none.mp hf
    simp only [findOrCreateSorted, hf]
    unfold uniquePairs at h ⊢
    rw [List.pairwise_append]
    refine ⟨h, by simp, ?_⟩
    intro x hx y hy
    rw [List.mem_singleton] at hy
    subst hy
    have hnx := hall x hx
    simpa [samePairb, matchesPair] using hnx
  · simp only [findOrCreateSorted, hf]
    exact h

/-- C1: resolving a conversation for `(A, B)` and `(B, A)` yields the
same result (same row, same resulting state), because the pair is
sorted before lookup and creation; and resolution preserves the
invariant that at most one conversation row exists per unordered
participant pair. -/
theorem findOrCreate_symm_and_unique (st : ChatState) (a b : String)
    (h : uniquePairs st.conversations) :
    findOrCreateConversation st a b = findOrCreateConversation st b a ∧
    uniquePairs (findOrCreateConversation st a b).2.conversations := by
  constructor
  · unfold findOrCreateConversation
    rw [sortedFst_comm a b, sortedSnd_comm a b]
  · exact uniquePairs_findOrCreateSorted st _ _ h

/-- Witness for C1 at the empty state and the concrete users. -/
theorem findOrCreate_symm_and_unique_witness :
    findOrCreateConversation stE alice bob = findOrCreateConversation stE bob alice ∧
    uniquePairs (findOrCreateConversation stE alice bob).2.conversations :=
  findOrCreate_symm_and_unique stE alice bob (by decide)

/-! ## C2: a send into a blocked conversation writes nothing -/

lemma alice_le_bob : alice ≤ bob := by
  rw [String.le_iff_toList_le]
  decide

lemma not_bob_le_alice : ¬ bob ≤ alice := by
  rw [String.le_iff_toList_le]
  decide

/-- Resolving `(bob, alice)` proceeds with the sorted pair
`(alice, bob)`; stated once because the kernel cannot evaluate the
string comparison inside `findOrCreateConversation` directly. -/
lemma findOrCreate_bob_alice (st : ChatState) :
    findOrCreateConversation st bob alice = findOrCreateSorted st alice bob := by
  unfold findOrCreateConversation
  rw [if_neg not_bob_le_alice, if_neg not_bob_le_alice]

/-- Same reduction for the already-sorted direction `(alice, bob)`. -/
lemma findOrCreate_alice_bob (st : ChatState) :
    findOrCreateConversation st alice bob = findOrCreateSorted st alice bob := by
  unfold findOrCreateConversation
  rw [if_pos alice_le_bob, if_pos alice_le_bob]

lemma findOrCreateSorted_cases (st : ChatState) (pa pb : String) :
    (∃ c, st.conversations.find? (matchesPair pa pb) = some c ∧
       findOrCreateSorted st pa pb = (c, st)) ∨
    (st.conversations.find? (matchesPair pa pb) = none ∧
       (findOrCreateSorted st pa pb).1.isBlocked = false ∧
       (findOrCreateSorted st pa pb).2.mongoMessages = st.mongoMessages ∧
       (findOrCreateSorted st pa pb).2.metadata = st.metadata ∧
       (findOrCreateSorted st pa pb).2.nextMongoId = st.nextMongoId ∧
       (findOrCreateSorted st pa pb).2.nextMetaId = st.nextMetaId) := by
  rcases hf : st.conversations.find? (matchesPair pa pb) with _ | c
  · right
    refine ⟨rfl, ?_, ?_, ?_, ?_, ?_⟩ <;> simp [findOrCreateSorted, hf]
  · left
    exact ⟨c, rfl, by simp [findOrCreateSorted, hf]⟩

lemma find?_id_of_mem {l : List Conversation} {c : Conversation}
    (hnodup : (l.map Conversation.id).Nodup) (hc : c ∈ l) :
    l.find? (fun x => x.id == c.id) = some c := by
  induction l with
  | nil => cases hc
  | cons x xs ih =>
      have hnd : x.id ∉ xs.map Conversation.id ∧ (xs.map Conversation.id).Nodup :=
        List.nodup_cons.mp (by simpa using hnodup)
      rcases List.mem_cons.mp hc with rfl | hmem
      · simp [List.find?]
      · have hx : (x.id == c.id) = false := by
          rw [beq_eq_false_iff_ne]
          intro he
          exact hnd.1 (he ▸ List.mem_map_of_mem Conversation.id hmem)
        rw [List.find?, hx]
        exact ih hnd.2 hmem

lemma isConversationBlocked_of_mem {st : ChatState} {c : Conversation}
    (hids : (st.conversations.map Conversation.id).Nodup)
    (hc : c ∈ st.conversations) :
    isConversationBlocked st c.id false = c.isBlocked := by
  unfold isConversationBlocked
  rw [if_neg (by simp), find?_id_of_mem hids hc]

/-- C2: when the resolved conversation's blocked flag is set (and the
blocked-flag read does not fail), `sendMessage` fails with the
blocked-conversation error, and neither the message collection nor the
metadata table changes — the blocked check precedes both writes.
`hids` is the primary-key uniqueness of the conversations table. -/
theorem sendMessage_blocked_rejects_without_write (st : ChatState)
    (now salt iv : Nat) (params : SendMessageParams)
    (hids : (st.conversations.map Conversation.id).Nodup)
    (hblocked :
      (findOrCreateConversation st params.senderId params.receiverId).1.isBlocked = true) :
    (sendMessage st now salt iv false params).1 =
      Except.error ChatError.blockedConversation ∧
    (sendMessage st now salt iv false params).2.mongoMessages = st.mongoMessages ∧
    (sendMessage st now salt iv false params).2.metadata = st.metadata := by
  rcases findOrCreateSorted_cases st
      (if params.senderId ≤ params.receiverId then params.senderId else params.receiverId)
      (if params.senderId ≤ params.receiverId then params.receiverId else params.senderId) with
    ⟨c, hf, heq⟩ | ⟨_, hnb, _, _, _, _⟩
  · have hc : c ∈ st.conversations := List.mem_of_find?_eq_some hf
    have hcb : c.isBlocked = true := by
      unfold findOrCreateConversation at hblocked
      rw [heq] at hblocked
      exact hblocked
    have hbl : isConversationBlocked st c.id false = true :=
      (isConversationBlocked_of_mem hids hc).trans hcb
    simp only [sendMessage, findOrCreateConversation, heq, hbl, if_true]
    exact ⟨trivial, trivial, trivial⟩
  · unfold findOrCreateConversation at hblocked
    rw [hblocked] at hnb
    cases hnb

/-- Witness for C2: `bob` sending text into the conversation `alice`
blocked fails and leaves both message stores empty. -/
theorem sendMessage_blocked_rejects_without_write_witness :
    (sendMessage stBlocked 5 7 9 false textParams).1 =
      Except.error ChatError.blockedConversation ∧
    (sendMessage stBlocked 5 7 9 false textParams).2.mongoMessages =
      stBlocked.mongoMessages ∧
    (sendMessage stBlocked 5 7 9 false textParams).2.metadata = stBlocked.metadata :=
  sendMessage_blocked_rejects_without_write stBlocked 5 7 9 textParams
    (by decide)
    (by
      rw [show textParams.senderId = bob from rfl,
        show textParams.receiverId = alice from rfl, findOrCreate_bob_alice]
      decide)

/-! ## C3: delivered/read marking -/

/-- One step of the delivered/read marking interface. -/
inductive MetaOp where
  | delivered (messageId now : Nat)
  | read (messageIds : List Nat) (now : Nat)
deriving DecidableEq, Repr

/-- Apply a sequence of marking operations in order. -/
def applyMetaOps : List MetaOp → ChatState → ChatState
  | [], st => st
  | MetaOp.delivered mid t :: ops, st => applyMetaOps ops (markAsDelivered st mid t)
  | MetaOp.read ids t :: ops, st => applyMetaOps ops (markAsRead st ids t)

/-- One undelivered, unread metadata row with id 1. -/
def metaRow : MessageMetadata :=
  { id := 1
    conversationId := 0
    mongoMessageId := 0
    senderId := bob
    receiverId := alice
    messageType := MessageType.text
    isDelivered := false
    isRead := false
    deliveredAt := none
    readAt := none
    isDeleted := false
    createdAt := 0 }

/-- State holding only `metaRow`. -/
def stOneMeta : ChatState := { stE with metadata := [metaRow], nextMetaId := 2 }

/-- `metaRow` already delivered but not yet read. -/
def metaRowDelivered : MessageMetadata :=
  { metaRow with
      isDelivered := true
      deliveredAt := some 0 }

/-- State holding only `metaRowDelivered`. -/
def stOneDelivered : ChatState :=
  { stE with metadata := [metaRowDelivered], nextMetaId := 2 }

/-- C3 counterexample: invoking `markAsDelivered` a second time at a
later clock value overwrites the delivered timestamp (`deliveredAt:
new Date()` is unconditional), so the observable metadata state differs
from the state after a single invocation — the operation is not
idempotent at the level of timestamps. -/
theorem markAsDelivered_second_call_changes_state :
    markAsDelivered (markAsDelivered stOneMeta 1 0) 1 1 ≠
      markAsDelivered stOneMeta 1 0 := by
  decide

lemma markAsDelivered_getElem (st : ChatState) (mid t i : Nat) :
    (markAsDelivered st mid t).metadata[i]? =
      st.metadata[i]?.map fun m =>
        if m.id == mid then { m with isDelivered := true, deliveredAt := some t }
        else m := by
  simp [markAsDelivered, List.getElem?_map]

lemma markAsRead_getElem (st : ChatState) (ids : List Nat) (t i : Nat) :
    (markAsRead st ids t).metadata[i]? =
      st.metadata[i]?.map fun m =>
        if ids.contains m.id then { m with isRead := true, readAt := some t }
        else m := by
  simp [markAsRead, List.getElem?_map]

lemma markAsDelivered_absorb (st : ChatState) (mid t t' : Nat) :
    markAsDelivered (markAsDelivered st mid t) mid t' = markAsDelivered st mid t' := by
  simp only [markAsDelivered, List.map_map]
  congr 1
  apply List.map_congr_left
  intro m _
  simp only [Function.comp]
  by_cases hc : m.id = mid
  · simp [hc]
  · simp [hc]

lemma markAsRead_absorb (st : ChatState) (ids : List Nat) (t t' : Nat) :
    markAsRead (markAsRead st ids t) ids t' = markAsRead st ids t' := by
  simp only [markAsRead, List.map_map]
  congr 1
  apply List.map_congr_left
  intro m _
  simp only [Function.comp]
  by_cases hc : m.id ∈ ids
  · simp [hc]
  · simp [hc]

lemma applyMetaOps_flags_monotone (ops : List MetaOp) (st : ChatState) (i : Nat)
    (md : MessageMetadata) (h : st.metadata[i]? = some md) :
    ∃ md', (applyMetaOps ops st).metadata[i]? = some md' ∧
      (md.isDelivered = true → md'.isDelivered = true) ∧
      (md.isRead = true → md'.isRead = true) := by
  induction ops generalizing st md with
  | nil => exact ⟨md, h, fun h => h, fun h => h⟩
  | cons op ops ih =>
      cases op with
      | delivered mid t =>
          by_cases hc : md.id = mid
          · have h2 : (markAsDelivered st mid t).metadata[i]? =
                some { md with isDelivered := true, deliveredAt := some t } := by
              rw [markAsDelivered_getElem, h]
              simp [hc]
            obtain ⟨md', h3, hd, hr⟩ := ih _ _ h2
            exact ⟨md', h3, fun _ => hd rfl, hr⟩
          · have h2 : (markAsDelivered st mid t).metadata[i]? = some md := by
              rw [markAsDelivered_getElem, h]
              simp [hc]
            obtain ⟨md', h3, hd, hr⟩ := ih _ _ h2
            exact ⟨md', h3, hd, hr⟩
      | read ids t =>
          by_cases hc : md.id ∈ ids
          · have h2 : (markAsRead st ids t).metadata[i]? =
                some { md with isRead := true, readAt := some t } := by
              rw [markAsRead_getElem, h]
              simp [hc]
            obtain ⟨md', h3, hd, hr⟩ := ih _ _ h2
            exact ⟨md', h3, hd, fun _ => hr rfl⟩
          · have h2 : (markAsRead st ids t).metadata[i]? = some md := by
              rw [markAsRead_getElem, h]
              simp [hc]
            obtain ⟨md', h3, hd, hr⟩ := ih _ _ h2
            exact ⟨md', h3, hd, hr⟩

/-- C3 (amended): re-invoking `markAsDelivered`/`markAsRead` yields the
state of a single invocation at the later clock value — the flags are
idempotent and a repeat at the same clock is a full no-op, but the
delivered/read timestamp is overwritten with the latest invocation's
time.  Additionally, under any sequence of delivered/read marking
operations, each flag is monotone per row: a row whose `isDelivered`
(respectively `isRead`) flag is `true` keeps that flag `true` — neither
flag ever reverts, independently of the other flag's state. -/
theorem mark_ops_absorb_and_flags_monotone (st : ChatState) (mid t t' : Nat)
    (ids : List Nat) (ops : List MetaOp) (i : Nat) (md : MessageMetadata)
    (h : st.metadata[i]? = some md) :
    markAsDelivered (markAsDelivered st mid t) mid t' = markAsDelivered st mid t' ∧
    markAsRead (markAsRead st ids t) ids t' = markAsRead st ids t' ∧
    ∃ md', (applyMetaOps ops st).metadata[i]? = some md' ∧
      (md.isDelivered = true → md'.isDelivered = true) ∧
      (md.isRead = true → md'.isRead = true) :=
  ⟨markAsDelivered_absorb st mid t t', markAsRead_absorb st ids t t',
    applyMetaOps_flags_monotone ops st i md h⟩

/-- Witness for C3 (amended) on a one-row state whose row is delivered
but not yet read, under a concrete sequence of a read then a delivered
marking. -/
theorem mark_ops_absorb_and_flags_monotone_witness :
    markAsDelivered (markAsDelivered stOneDelivered 1 3) 1 4 =
      markAsDelivered stOneDelivered 1 4 ∧
    markAsRead (markAsRead stOneDelivered [1] 3) [1] 4 =
      markAsRead stOneDelivered [1] 4 ∧
    ∃ md',
      (applyMetaOps [MetaOp.read [1] 5, MetaOp.delivered 1 6]
        stOneDelivered).metadata[0]? = some md' ∧
      (metaRowDelivered.isDelivered = true → md'.isDelivered = true) ∧
      (metaRowDelivered.isRead = true → md'.isRead = true) :=
  mark_ops_absorb_and_flags_monotone stOneDelivered 1 3 4 [1]
    [MetaOp.read [1] 5, MetaOp.delivered 1 6] 0 metaRowDelivered rfl

/-! ## C4: message type/payload shape of created messages -/

/-- The conversation row `findOrCreateSorted` creates when no row
matches. -/
def newConv (st : ChatState) (pa pb : String) : Conversation :=
  { id := st.nextConvId
    participant1Id := pa
    participant2Id := pb
    lastMessageAt := none
    lastMessagePreview := none
    isBlocked := false
    blockedBy := none }

lemma findOrCreateSorted_eq (st : ChatState) (pa pb : String) :
    (∃ c, st.conversations.find? (matchesPair pa pb) = some c ∧
        findOrCreateSorted st pa pb = (c, st)) ∨
    findOrCreateSorted st pa pb =
      (newConv st pa pb,
        { st with
            conversations := st.conversations ++ [newConv st pa pb]
            nextConvId := st.nextConvId + 1 }) := by
  rcases hf : st.conversations.find? (matchesPair pa pb) with _ | c
  · right
    simp [findOrCreateSorted, hf, newConv]
  · left
    exact ⟨c, rfl, by simp [findOrCreateSorted, hf]⟩

/-- The MongoDB document `sendMessage` persists, as a function of the
inputs: media fields and reply reference are copied from the
parameters; the body is whatever the encryption step produced. -/
def newMongoOf (st : ChatState) (now : Nat) (params : SendMessageParams)
    (cid : Nat) (ec : Option (List Nat)) : MongoMessage :=
  { mongoId := st.nextMongoId
    conversationId := cid
    senderId := params.senderId
    receiverId := params.receiverId
    messageType := params.messageType
    encryptedContent := ec
    mediaUrl := params.mediaUrl
    mediaType := params.mediaType
    mediaSize := params.mediaSize
    fileName := params.fileName
    thumbnailUrl := params.thumbnailUrl
    replyToMessageId := params.replyToMessageId
    createdAt := now }

lemma sendMessage_mongo_of_resolved (st : ChatState) (now salt iv : Nat) (f : Bool)
    (params : SendMessageParams) (c : Conversation) (st1 : ChatState)
    (heq : findOrCreateConversation st params.senderId params.receiverId = (c, st1))
    (hmm : st1.mongoMessages = st.mongoMessages)
    (hnm : st1.nextMongoId = st.nextMongoId) :
    (sendMessage st now salt iv f params).2.mongoMessages = st.mongoMessages ∨
    ∃ ec, encryptStep salt iv params = Except.ok ec ∧
      (sendMessage st now salt iv f params).2.mongoMessages =
        st.mongoMessages ++ [newMongoOf st now params c.id ec] := by
  simp only [sendMessage, heq]
  by_cases hb : isConversationBlocked st1 c.id f = true
  · simp [hb, hmm]
  · rcases hces : encryptStep salt iv params with e | ec
    · simp [hb, hces, hmm]
    · right
      refine ⟨ec, rfl, ?_⟩
      simp [hb, hces, createMessage, updateLastMessage, hmm, hnm, newMongoOf]

lemma sendMessage_mongo_cases (st : ChatState) (now salt iv : Nat) (f : Bool)
    (params : SendMessageParams) :
    (sendMessage st now salt iv f params).2.mongoMessages = st.mongoMessages ∨
    ∃ cid ec, encryptStep salt iv params = Except.ok ec ∧
      (sendMessage st now salt iv f params).2.mongoMessages =
        st.mongoMessages ++ [newMongoOf st now params cid ec] := by
  rcases findOrCreateSorted_eq st
      (if params.senderId ≤ params.receiverId then params.senderId else params.receiverId)
      (if params.senderId ≤ params.receiverId then params.receiverId else params.senderId) with
    ⟨c, _, heq⟩ | heq
  · rcases sendMessage_mongo_of_resolved st now salt iv f params c st heq rfl rfl with
      h | ⟨ec, h1, h2⟩
    · exact Or.inl h
    · exact Or.inr ⟨c.id, ec, h1, h2⟩
  · rcases sendMessage_mongo_of_resolved st now salt iv f params _ _ heq rfl rfl with
      h | ⟨ec, h1, h2⟩
    · exact Or.inl h
    · exact Or.inr ⟨(newConv st _ _).id, ec, h1, h2⟩

lemma encryptStep_nonText (salt iv : Nat) (params : SendMessageParams)
    (h : params.messageType ≠ MessageType.text) :
    encryptStep salt iv params = Except.ok none := by
  unfold encryptStep
  cases params.content with
  | none => rfl
  | some c => exact if_neg (fun h2 => h h2.2)

/-- Text params that also carry a media URL. -/
def textWithMediaParams : SendMessageParams := { textParams with mediaUrl := some httpUrl }

/-- C4 counterexample: `sendMessage` copies the caller's media fields
into the stored document unconditionally, so a `text` send that also
supplies a media URL produces a `text` message carrying that media
field — the "text messages carry no media fields" half of the claim
fails on the code. -/
theorem sendMessage_text_keeps_caller_media :
    ((sendMessage stE 5 7 9 false textWithMediaParams).2.mongoMessages.any
      (fun m => decide (m.messageType = MessageType.text ∧
        m.mediaUrl = some httpUrl))) = true := by
  have h := findOrCreate_bob_alice stE
  simp only [sendMessage]
  rw [show textWithMediaParams.senderId = bob from rfl,
    show textWithMediaParams.receiverId = alice from rfl, h]
  decide

/-- C4 (amended): every document newly created by `sendMessage` carries
exactly the media fields the caller supplied (so a text message is
media-free only when the caller passed no media fields), and a message
of a non-text type carries no encrypted text body. -/
theorem sendMessage_created_message_shape (st : ChatState) (now salt iv : Nat)
    (f : Bool) (params : SendMessageParams) (m : MongoMessage)
    (hm : m ∈ (sendMessage st now salt iv f params).2.mongoMessages)
    (hnew : m ∉ st.mongoMessages) :
    (params.messageType ≠ MessageType.text → m.encryptedContent = none) ∧
    m.mediaUrl = params.mediaUrl ∧ m.mediaType = params.mediaType ∧
    m.mediaSize = params.mediaSize ∧ m.fileName = params.fileName ∧
    m.thumbnailUrl = params.thumbnailUrl := by
  rcases sendMessage_mongo_cases st now salt iv f params with h | ⟨cid, ec, hces, h⟩
  · rw [h] at hm
    exact absurd hm hnew
  · rw [h] at hm
    rcases List.mem_append.mp hm with hold | hsingle
    · exact absurd hold hnew
    · have hm2 : m = newMongoOf st now params cid ec := List.mem_singleton.mp hsingle
      subst hm2
      refine ⟨?_, rfl, rfl, rfl, rfl, rfl⟩
      intro hnt
      have : encryptStep salt iv params = Except.ok none := encryptStep_nonText salt iv params hnt
      rw [this] at hces
      injection hces with h2
      simp [newMongoOf, h2]

/-- An image send carrying only media fields. -/
def imageParams : SendMessageParams :=
  { senderId := bob
    receiverId := alice
    messageType := MessageType.image
    content := some ("ignored".toList)
    mediaUrl := some httpUrl
    mediaType := none
    mediaSize := some 2048
    fileName := none
    thumbnailUrl := none
    replyToMessageId := none }

/-- Witness for C4 (amended): the document created by an image send has
no encrypted body and exactly the caller's media fields. -/
theorem sendMessage_created_message_shape_witness :
    (imageParams.messageType ≠ MessageType.text →
      (newMongoOf stE 5 imageParams 0 none).encryptedContent = none) ∧
    (newMongoOf stE 5 imageParams 0 none).mediaUrl = imageParams.mediaUrl ∧
    (newMongoOf stE 5 imageParams 0 none).mediaType = imageParams.mediaType ∧
    (newMongoOf stE 5 imageParams 0 none).mediaSize = imageParams.mediaSize ∧
    (newMongoOf stE 5 imageParams 0 none).fileName = imageParams.fileName ∧
    (newMongoOf stE 5 imageParams 0 none).thumbnailUrl = imageParams.thumbnailUrl :=
  sendMessage_created_message_shape stE 5 7 9 false imageParams
    (newMongoOf stE 5 imageParams 0 none)
    (by
      have h := findOrCreate_bob_alice stE
      simp only [sendMessage]
      rw [show imageParams.senderId = bob from rfl,
        show imageParams.receiverId = alice from rfl, h]
      decide)
    (by decide)

/-! ## C5: content validation on the text send path -/

lemma findOrCreateConversation_stores (st : ChatState) (a b : String) :
    (findOrCreateConversation st a b).2.mongoMessages = st.mongoMessages ∧
    (findOrCreateConversation st a b).2.metadata = st.metadata ∧
    (findOrCreateConversation st a b).2.nextMongoId = st.nextMongoId ∧
    (findOrCreateConversation st a b).2.nextMetaId = st.nextMetaId := by
  rcases findOrCreateSorted_eq st (if a ≤ b then a else b) (if a ≤ b then b else a) with
    ⟨c, _, heq⟩ | heq <;>
  · unfold findOrCreateConversation
    rw [heq]
    exact ⟨rfl, rfl, rfl, rfl⟩

lemma sendMessage_not_blocked_eq (st : ChatState) (now salt iv : Nat)
    (params : SendMessageParams)
    (hnb : isConversationBlocked
        (findOrCreateConversation st params.senderId params.receiverId).2
        (findOrCreateConversation st params.senderId params.receiverId).1.id false
      = false) :
    (∀ e, encryptStep salt iv params = Except.error e →
      (sendMessage st now salt iv false params).1 = Except.error e ∧
      (sendMessage st now salt iv false params).2.mongoMessages = st.mongoMessages ∧
      (sendMessage st now salt iv false params).2.metadata = st.metadata) ∧
    (∀ ec, encryptStep salt iv params = Except.ok ec →
      ∃ mw, (sendMessage st now salt iv false params).1 = Except.ok mw ∧
        (sendMessage st now salt iv false params).2.metadata.length =
          st.metadata.length + 1) := by
  obtain ⟨hmm, hmd, _, _⟩ :=
    findOrCreateConversation_stores st params.senderId params.receiverId
  constructor
  · intro e he
    simp only [sendMessage, hnb, he]
    simp [hmm, hmd]
  · intro ec he
    have key : sendMessage st now salt iv false params =
        (let fc := findOrCreateConversation st params.senderId params.receiverId
         let cr := createMessage fc.2 now
           { conversationId := fc.1.id
             senderId := params.senderId
             receiverId := params.receiverId
             messageType := params.messageType
             encryptedContent := ec
             mediaUrl := params.mediaUrl
             mediaType := params.mediaType
             mediaSize := params.mediaSize
             fileName := params.fileName
             thumbnailUrl := params.thumbnailUrl
             replyToMessageId := params.replyToMessageId }
         (Except.ok (formatMessage cr.1.1 cr.1.2),
          updateLastMessage cr.2 fc.1.id (generateMessagePreview params)
            cr.1.2.createdAt)) := by
      simp [sendMessage, hnb, he]
    rw [key]
    refine ⟨_, rfl, ?_⟩
    simp [createMessage, updateLastMessage, hmd]

lemma validate_whitespace (c : List Char) (h : jsTrim c = []) :
    validateMessageContent c = Except.error ChatError.emptyContent := by
  simp [validateMessageContent, h]

lemma validate_tooLong (c : List Char) (h1 : jsTrim c ≠ [])
    (h2 : c.length > MAX_MESSAGE_LENGTH) :
    validateMessageContent c = Except.error ChatError.tooLong := by
  have hc : c ≠ [] := by
    intro he
    exact h1 (by simp [he, jsTrim])
  simp [validateMessageContent, hc, h1, h2, Nat.not_le.mpr h2]

lemma encryptStep_text_some (salt iv : Nat) (params : SendMessageParams)
    (c : List Char) (htext : params.messageType = MessageType.text)
    (hc : params.content = some c) (hne : c ≠ []) :
    encryptStep salt iv params =
      match validateMessageContent c with
      | Except.error e => Except.error e
      | Except.ok _ =>
          Except.ok (some (encryptMessage salt iv (sanitizeMessageContent c)).encrypted) := by
  simp only [encryptStep, hc]
  rw [if_pos ⟨hne, htext⟩]

lemma encryptStep_empty_content (salt iv : Nat) (params : SendMessageParams)
    (hc : params.content = some []) :
    encryptStep salt iv params = Except.ok none := by
  simp only [encryptStep, hc]
  rw [if_neg (fun h : ¬[] = [] ∧ _ => h.1 rfl)]

/-- Text params with empty-string content. -/
def emptyTextParams : SendMessageParams := { textParams with content := some [] }

/-- Whether a send outcome is a success. -/
def sendOk (r : Except ChatError MessageWithMetadata) : Bool :=
  match r with
  | Except.ok _ => true
  | Except.error _ => false

/-- C5 counterexample: a text send whose content is the empty string —
blank content — is not rejected: the JS truthiness guard
`params.content && ...` skips validation for an empty string, so the
send succeeds and creates a (bodyless) message instead of failing with
the empty-content error. -/
theorem sendMessage_empty_text_bypasses_validation :
    sendOk (sendMessage stE 5 7 9 false emptyTextParams).1 = true ∧
    (sendMessage stE 5 7 9 false emptyTextParams).2.metadata.length = 1 := by
  have h := findOrCreate_bob_alice stE
  constructor <;>
  · simp only [sendMessage]
    rw [show emptyTextParams.senderId = bob from rfl,
      show emptyTextParams.receiverId = alice from rfl, h]
    decide

/-- C5 (amended): on the text send path (conversation not blocked),
non-empty whitespace-only content is rejected with the empty-content
error and content longer than 5000 characters with the too-long error,
in both cases creating no message in either store; but empty-string
content bypasses validation entirely and the send succeeds, creating a
message. -/
theorem sendMessage_text_validation (st : ChatState) (now salt iv : Nat)
    (params : SendMessageParams) (c : List Char)
    (htext : params.messageType = MessageType.text)
    (hc : params.content = some c)
    (hnb : isConversationBlocked
        (findOrCreateConversation st params.senderId params.receiverId).2
        (findOrCreateConversation st params.senderId params.receiverId).1.id false
      = false) :
    (c ≠ [] → jsTrim c = [] →
      (sendMessage st now salt iv false params).1 =
        Except.error ChatError.emptyContent ∧
      (sendMessage st now salt iv false params).2.mongoMessages = st.mongoMessages ∧
      (sendMessage st now salt iv false params).2.metadata = st.metadata) ∧
    (jsTrim c ≠ [] → c.length > MAX_MESSAGE_LENGTH →
      (sendMessage st now salt iv false params).1 = Except.error ChatError.tooLong ∧
      (sendMessage st now salt iv false params).2.mongoMessages = st.mongoMessages ∧
      (sendMessage st now salt iv false params).2.metadata = st.metadata) ∧
    (c = [] → ∃ mw, (sendMessage st now salt iv false params).1 = Except.ok mw ∧
      (sendMessage st now salt iv false params).2.metadata.length =
        st.metadata.length + 1) := by
  obtain ⟨herr, hok⟩ := sendMessage_not_blocked_eq st now salt iv params hnb
  refine ⟨?_, ?_, ?_⟩
  · intro hne hws
    exact herr ChatError.emptyContent
      (by rw [encryptStep_text_some salt iv params c htext hc hne,
        validate_whitespace c hws])
  · intro hws hlong
    have hne : c ≠ [] := by
      intro he
      exact hws (by simp [he, jsTrim])
    exact herr ChatError.tooLong
      (by rw [encryptStep_text_some salt iv params c htext hc hne,
        validate_tooLong c hws hlong])
  · intro he
    subst he
    exact hok none (encryptStep_empty_content salt iv params hc)

/-- Text params with whitespace-only content. -/
def whitespaceTextParams : SendMessageParams := { textParams with content := some [' '] }

/-- Witness for C5 (amended) at whitespace-only content. -/
theorem sendMessage_text_validation_witness :
    (([' '] : List Char) ≠ [] → jsTrim [' '] = [] →
      (sendMessage stE 5 7 9 false whitespaceTextParams).1 =
        Except.error ChatError.emptyContent ∧
      (sendMessage stE 5 7 9 false whitespaceTextParams).2.mongoMessages =
        stE.mongoMessages ∧
      (sendMessage stE 5 7 9 false whitespaceTextParams).2.metadata = stE.metadata) ∧
    (jsTrim [' '] ≠ [] → List.length [' '] > MAX_MESSAGE_LENGTH →
      (sendMessage stE 5 7 9 false whitespaceTextParams).1 =
        Except.error ChatError.tooLong ∧
      (sendMessage stE 5 7 9 false whitespaceTextParams).2.mongoMessages =
        stE.mongoMessages ∧
      (sendMessage stE 5 7 9 false whitespaceTextParams).2.metadata = stE.metadata) ∧
    (([' '] : List Char) = [] →
      ∃ mw, (sendMessage stE 5 7 9 false whitespaceTextParams).1 = Except.ok mw ∧
        (sendMessage stE 5 7 9 false whitespaceTextParams).2.metadata.length =
          stE.metadata.length + 1) :=
  sendMessage_text_validation stE 5 7 9 whitespaceTextParams [' '] rfl rfl
    (by
      have h := findOrCreate_bob_alice stE
      rw [show whitespaceTextParams.senderId = bob from rfl,
        show whitespaceTextParams.receiverId = alice from rfl, h]
      decide)

/-! ## C6: encrypt/decrypt roundtrip and sanitize idempotence -/

instance {ε α : Type} [DecidableEq ε] [DecidableEq α] : DecidableEq (Except ε α) :=
  fun a b =>
  match a, b with
  | Except.error e, Except.error f =>
      if h : e = f then isTrue (by rw [h])
      else isFalse (by intro he; injection he; exact h ‹_›)
  | Except.ok x, Except.ok y =>
      if h : x = y then isTrue (by rw [h])
      else isFalse (by intro he; injection he; exact h ‹_›)
  | Except.error _, Except.ok _ => isFalse (fun he => Except.noConfusion he)
  | Except.ok _, Except.error _ => isFalse (fun he => Except.noConfusion he)

lemma mem_replaceAll {x c : Char} {rep s : List Char}
    (h : x ∈ replaceAll c rep s) : x ∈ rep ∨ (x ∈ s ∧ x ≠ c) := by
  induction s with
  | nil => cases h
  | cons y ys ih =>
      simp only [replaceAll] at h
      rcases List.mem_append.mp h with h1 | h2
      · by_cases hy : y = c
        · rw [if_pos hy] at h1
          exact Or.inl h1
        · rw [if_neg hy] at h1
          rcases List.mem_singleton.mp h1 with rfl
          exact Or.inr ⟨List.mem_cons_self _ _, hy⟩
      · rcases ih h2 with h3 | ⟨h4, h5⟩
        · exact Or.inl h3
        · exact Or.inr ⟨List.mem_cons_of_mem _ h4, h5⟩

lemma replaceAll_eq_self {c : Char} {rep s : List Char}
    (h : ∀ x ∈ s, x ≠ c) : replaceAll c rep s = s := by
  induction s with
  | nil => rfl
  | cons y ys ih =>
      simp only [replaceAll]
      rw [if_neg (h y (List.mem_cons_self y ys)),
        ih (fun x hx => h x (List.mem_cons_of_mem y hx))]
      rfl

lemma replaceAll_ne_nil {c : Char} {rep s : List Char}
    (hs : s ≠ []) (hrep : rep ≠ []) : replaceAll c rep s ≠ [] := by
  cases s with
  | nil => exact absurd rfl hs
  | cons y ys =>
      simp only [replaceAll]
      intro h
      rcases List.append_eq_nil.mp h with ⟨h1, _⟩
      by_cases hy : y = c
      · rw [if_pos hy] at h1
        exact hrep h1
      · rw [if_neg hy] at h1
        cases h1

lemma rep_lt_ok : ∀ y ∈ ("&lt;".toList),
    y ≠ '<' ∧ y ≠ '>' ∧ y ≠ quotChar ∧ y ≠ aposChar ∧ y ≠ '/' := by decide

lemma rep_gt_ok : ∀ y ∈ ("&gt;".toList),
    y ≠ '<' ∧ y ≠ '>' ∧ y ≠ quotChar ∧ y ≠ aposChar ∧ y ≠ '/' := by decide

lemma rep_quot_ok : ∀ y ∈ ("&quot;".toList),
    y ≠ '<' ∧ y ≠ '>' ∧ y ≠ quotChar ∧ y ≠ aposChar ∧ y ≠ '/' := by decide

lemma rep_apos_ok : ∀ y ∈ ("&#x27;".toList),
    y ≠ '<' ∧ y ≠ '>' ∧ y ≠ quotChar ∧ y ≠ aposChar ∧ y ≠ '/' := by decide

lemma rep_slash_ok : ∀ y ∈ ("&#x2F;".toList),
    y ≠ '<' ∧ y ≠ '>' ∧ y ≠ quotChar ∧ y ≠ aposChar ∧ y ≠ '/' := by decide

lemma sanitize_no_specials {x : Char} {s : List Char}
    (hx : x ∈ sanitizeMessageContent s) :
    x ≠ '<' ∧ x ≠ '>' ∧ x ≠ quotChar ∧ x ≠ aposChar ∧ x ≠ '/' := by
  unfold sanitizeMessageContent at hx
  rcases mem_replaceAll hx with h | ⟨hx, hne5⟩
  · exact rep_slash_ok x h
  rcases mem_replaceAll hx with h | ⟨hx, hne4⟩
  · exact rep_apos_ok x h
  rcases mem_replaceAll hx with h | ⟨hx, hne3⟩
  · exact rep_quot_ok x h
  rcases mem_replaceAll hx with h | ⟨hx, hne2⟩
  · exact rep_gt_ok x h
  rcases mem_replaceAll hx with h | ⟨hx, hne1⟩
  · exact rep_lt_ok x h
  exact ⟨hne1, hne2, hne3, hne4, hne5⟩

lemma sanitize_eq_self {t : List Char}
    (h : ∀ x ∈ t, x ≠ '<' ∧ x ≠ '>' ∧ x ≠ quotChar ∧ x ≠ aposChar ∧ x ≠ '/') :
    sanitizeMessageContent t = t := by
  unfold sanitizeMessageContent
  rw [replaceAll_eq_self (fun x hx => (h x hx).1),
    replaceAll_eq_self (fun x hx => (h x hx).2.1),
    replaceAll_eq_self (fun x hx => (h x hx).2.2.1),
    replaceAll_eq_self (fun x hx => (h x hx).2.2.2.1),
    replaceAll_eq_self (fun x hx => (h x hx).2.2.2.2)]

lemma sanitize_idem (s : List Char) :
    sanitizeMessageContent (sanitizeMessageContent s) = sanitizeMessageContent s :=
  sanitize_eq_self (fun _ hx => sanitize_no_specials hx)

lemma sanitize_ne_nil {s : List Char} (h : s ≠ []) :
    sanitizeMessageContent s ≠ [] := by
  unfold sanitizeMessageContent
  refine replaceAll_ne_nil
    (replaceAll_ne_nil
      (replaceAll_ne_nil
        (replaceAll_ne_nil
          (replaceAll_ne_nil h (by decide)) (by decide)) (by decide)) (by decide))
    (by decide)

lemma keystream_lt (key salt i : Nat) : keystream key salt i < charRadix :=
  Nat.mod_lt _ (by decide)

lemma decode_encode (key salt : Nat) : ∀ (m : List Nat) (i : Nat),
    (∀ b ∈ m, b < charRadix) →
    decodeBody key salt i (encodeBody key salt i m) = m
  | [], _, _ => rfl
  | b :: bs, i, h => by
      simp only [encodeBody, decodeBody]
      have hk := keystream_lt key salt i
      have hb := h b (List.mem_cons_self b bs)
      rw [Nat.mod_add_mod, Nat.add_assoc, Nat.add_sub_cancel' (Nat.le_of_lt hk),
        Nat.add_mod_right, Nat.mod_eq_of_lt hb,
        decode_encode key salt bs (i + 1) (fun y hy => h y (List.mem_cons_of_mem b hy))]

lemma cipherDecrypt_cipherEncrypt (key salt : Nat) (m : List Nat)
    (h : ∀ b ∈ m, b < charRadix) :
    cipherDecrypt key (cipherEncrypt key salt m) = some m := by
  simp only [cipherEncrypt, cipherDecrypt]
  rw [if_pos trivial, decode_encode key salt m 0 h]

lemma char_toNat_lt (c : Char) : c.toNat < charRadix := by
  rcases c.valid with h | h
  · exact Nat.lt_trans h (by decide)
  · exact h.2

lemma decrypt_encrypt_nonempty (salt iv : Nat) (t : List Char) (h : t ≠ []) :
    decryptMessage (encryptMessage salt iv t).encrypted = Except.ok t := by
  have hcd : cipherDecrypt ENCRYPTION_KEY
      (cipherEncrypt ENCRYPTION_KEY salt (t.map Char.toNat)) =
      some (t.map Char.toNat) :=
    cipherDecrypt_cipherEncrypt ENCRYPTION_KEY salt (t.map Char.toNat)
      (by
        intro b hb
        rcases List.mem_map.mp hb with ⟨c, _, rfl⟩
        exact char_toNat_lt c)
  show (match cipherDecrypt ENCRYPTION_KEY
      (cipherEncrypt ENCRYPTION_KEY salt (t.map Char.toNat)) with
    | none => Except.error ChatError.decryptionFailed
    | some bytes =>
        if bytes.isEmpty then Except.error ChatError.decryptionFailed
        else Except.ok (bytes.map Char.ofNat)) = Except.ok t
  rw [hcd]
  show (if (t.map Char.toNat).isEmpty then Except.error ChatError.decryptionFailed
    else Except.ok ((t.map Char.toNat).map Char.ofNat)) = Except.ok t
  have hne : ¬((t.map Char.toNat).isEmpty = true) := by
    cases t with
    | nil => exact absurd rfl h
    | cons a l => exact fun hh => Bool.noConfusion hh
  rw [if_neg hne]
  have hmap : (t.map Char.toNat).map Char.ofNat = t := by
    rw [List.map_map]
    have hco : (Char.ofNat ∘ Char.toNat) = (id : Char → Char) :=
      funext fun c => Char.ofNat_toNat c
    rw [hco, List.map_id]
  rw [hmap]

/-- C6 counterexample: at the empty string the claimed roundtrip fails.
`sanitize("")` is `""`, and `decryptMessage` rejects an empty decryption
result (the source's `if (!decrypted) throw`), so decrypting the
encryption of the sanitized empty text yields a decryption error rather
than the sanitized text. -/
theorem decrypt_encrypt_fails_on_empty :
    decryptMessage (encryptMessage 0 0 (sanitizeMessageContent [])).encrypted ≠
      Except.ok (sanitizeMessageContent []) ∧
    decryptMessage (encryptMessage 0 0 (sanitizeMessageContent [])).encrypted =
      Except.error ChatError.decryptionFailed := by
  decide

/-- C6 (amended): for every non-empty text, decrypting the encryption
of the sanitized text returns the sanitized text (for the empty text
the decrypt step instead fails by the empty-result check), and
sanitization is idempotent on every string. -/
theorem decrypt_encrypt_sanitize_roundtrip (salt iv : Nat) (text x : List Char)
    (h : text ≠ []) :
    decryptMessage (encryptMessage salt iv (sanitizeMessageContent text)).encrypted =
      Except.ok (sanitizeMessageContent text) ∧
    sanitizeMessageContent (sanitizeMessageContent x) = sanitizeMessageContent x :=
  ⟨decrypt_encrypt_nonempty salt iv _ (sanitize_ne_nil h), sanitize_idem x⟩

/-- Witness for C6 (amended) at a concrete text containing a character
that sanitization rewrites. -/
theorem decrypt_encrypt_sanitize_roundtrip_witness :
    decryptMessage (encryptMessage 3 4 (sanitizeMessageContent ("hi<".toList))).encrypted =
      Except.ok (sanitizeMessageContent ("hi<".toList)) ∧
    sanitizeMessageContent (sanitizeMessageContent ("a<b/c".toList)) =
      sanitizeMessageContent ("a<b/c".toList) :=
  decrypt_encrypt_sanitize_roundtrip 3 4 ("hi<".toList) ("a<b/c".toList) (by decide)

/-! ## C7: soft delete — authorization, visibility, no hard delete -/

lemma mem_insertByCreatedAtDesc {a m : MessageMetadata} {l : List MessageMetadata}
    (h : a ∈ insertByCreatedAtDesc m l) : a = m ∨ a ∈ l := by
  induction l with
  | nil =>
      simp only [insertByCreatedAtDesc] at h
      exact Or.inl (List.mem_singleton.mp h)
  | cons x xs ih =>
      simp only [insertByCreatedAtDesc] at h
      by_cases hc : m.createdAt ≤ x.createdAt
      · rw [if_pos hc] at h
        rcases List.mem_cons.mp h with rfl | h2
        · exact Or.inr (List.mem_cons_self _ _)
        · rcases ih h2 with h3 | h4
          · exact Or.inl h3
          · exact Or.inr (List.mem_cons_of_mem _ h4)
      · rw [if_neg hc] at h
        rcases List.mem_cons.mp h with rfl | h2
        · exact Or.inl rfl
        · exact Or.inr h2

lemma mem_sortByCreatedAtDesc {a : MessageMetadata} {l : List MessageMetadata}
    (h : a ∈ sortByCreatedAtDesc l) : a ∈ l := by
  induction l with
  | nil =>
      simp only [sortByCreatedAtDesc] at h
      exact absurd h (List.not_mem_nil a)
  | cons x xs ih =>
      simp only [sortByCreatedAtDesc] at h
      rcases mem_insertByCreatedAtDesc h with rfl | h2
      · exact List.mem_cons_self _ _
      · exact List.mem_cons_of_mem _ (ih h2)

lemma mem_page_of_getMessages {st : ChatState} {cid page limit : Nat}
    {p : MongoMessage × MessageMetadata}
    (hp : p ∈ (getMessagesByConversation st cid page limit).1) :
    p.2 ∈ st.metadata ∧ p.2.isDeleted = false := by
  unfold getMessagesByConversation at hp
  rcases List.mem_filterMap.mp hp with ⟨md, hmd, hf⟩
  have hmd2 := mem_sortByCreatedAtDesc (List.mem_of_mem_drop (List.mem_of_mem_take hmd))
  have hfilter := List.mem_filter.mp hmd2
  have hand := (Bool.and_eq_true _ _).mp hfilter.2
  have hp2 : p.2 = md := by
    rcases hfind : st.mongoMessages.find? (fun m => m.mongoId == md.mongoMessageId) with
      _ | msg
    · rw [hfind] at hf
      cases hf
    · rw [hfind] at hf
      injection hf with hf2
      rw [← hf2]
  rw [hp2]
  exact ⟨hfilter.1, eq_of_beq hand.2⟩

/-- C7: soft-deleting a message by a requester who is not the stored
sender fails with the unauthorized error (the returned state is
untouched, the operation produces no new state); deleting as the sender
succeeds, keeps exactly as many metadata rows as before (nothing is
removed from storage), leaves a row with the message's id flagged
deleted, and that message appears on no page of any subsequent
`getMessagesByConversation` fetch. -/
theorem deleteMessage_auth_and_soft (st : ChatState) (mid : Nat) (uid : String)
    (md : MessageMetadata)
    (hfind : st.metadata.find? (fun m => m.id == mid) = some md) :
    (md.senderId ≠ uid →
      deleteMessage st mid uid = Except.error ChatError.unauthorized) ∧
    (md.senderId = uid → ∃ st', deleteMessage st mid uid = Except.ok st' ∧
      st'.metadata.length = st.metadata.length ∧
      (∃ m ∈ st'.metadata, m.id = mid ∧ m.isDeleted = true) ∧
      (∀ cid page limit p, p ∈ (getMessagesByConversation st' cid page limit).1 →
        p.2.id ≠ mid)) := by
  constructor
  · intro hne
    simp only [deleteMessage, hfind]
    rw [if_pos hne]
  · intro heq
    refine ⟨{ st with metadata := st.metadata.map fun m =>
        if m.id == mid then { m with isDeleted := true } else m }, ?_, ?_, ?_, ?_⟩
    · simp only [deleteMessage, hfind]
      rw [if_neg (show ¬(md.senderId ≠ uid) from fun hh => hh heq)]
    · exact List.length_map _ _
    · have hmem : md ∈ st.metadata := List.mem_of_find?_eq_some hfind
      have hid : (md.id == mid) = true := by simpa using List.find?_some hfind
      refine ⟨{ md with isDeleted := true }, ?_, ?_, rfl⟩
      · refine List.mem_map.mpr ⟨md, hmem, ?_⟩
        show (if (md.id == mid) = true then
          ({ md with isDeleted := true } : MessageMetadata) else md) =
          { md with isDeleted := true }
        rw [if_pos hid]
      · simpa using hid
    · intro cid page limit p hp hpid
      obtain ⟨hmem, hdel⟩ := mem_page_of_getMessages hp
      rcases List.mem_map.mp hmem with ⟨m0, _, hf⟩
      by_cases hc : (m0.id == mid) = true
      · rw [if_pos hc] at hf
        rw [← hf] at hdel
        cases hdel
      · rw [if_neg hc] at hf
        rw [← hf] at hpid
        exact hc (by simp [hpid])

/-- Witness for C7: on the one-row state, `alice` (not the sender)
cannot delete `bob`'s message. -/
theorem deleteMessage_auth_and_soft_witness :
    (metaRow.senderId ≠ alice →
      deleteMessage stOneMeta 1 alice = Except.error ChatError.unauthorized) ∧
    (metaRow.senderId = alice →
      ∃ st', deleteMessage stOneMeta 1 alice = Except.ok st' ∧
        st'.metadata.length = stOneMeta.metadata.length ∧
        (∃ m ∈ st'.metadata, m.id = 1 ∧ m.isDeleted = true) ∧
        (∀ cid page limit p,
          p ∈ (getMessagesByConversation st' cid page limit).1 → p.2.id ≠ 1)) :=
  deleteMessage_auth_and_soft stOneMeta 1 alice metaRow (by decide)

/-! ## C8: unread count -/

lemma matchesUnreadWhere_eq (u : String) (c : Option Nat) (m : MessageMetadata) :
    matchesUnreadWhere (buildUnreadWhere u c) m =
      decide (m.receiverId = u ∧ m.isRead = false ∧ m.isDeleted = false ∧
        ∀ cid, c = some cid → m.conversationId = cid) := by
  rw [Bool.eq_iff_iff]
  simp only [matchesUnreadWhere, buildUnreadWhere, Bool.and_eq_true, beq_iff_eq,
    decide_eq_true_eq]
  cases c with
  | none => simp [and_assoc]
  | some cid => simp [and_assoc]

/-- C8: `getUnreadCount` returns exactly the number of metadata rows
whose receiver is the given user, whose read flag is false and whose
deleted flag is false, restricted to the given conversation when one is
supplied. -/
theorem getUnreadCount_counts_matching_rows (st : ChatState) (userId : String)
    (conversationId : Option Nat) :
    getUnreadCount st userId conversationId =
      st.metadata.countP fun m =>
        decide (m.receiverId = userId ∧ m.isRead = false ∧ m.isDeleted = false ∧
          ∀ cid, conversationId = some cid → m.conversationId = cid) := by
  unfold getUnreadCount
  rw [← List.countP_eq_length_filter]
  congr 1
  funext m
  exact matchesUnreadWhere_eq userId conversationId m

/-! ## C9: decryption failures isolated per message -/

lemma isEmpty_false_of_ne_nil {α : Type} {l : List α} (h : l ≠ []) :
    l.isEmpty = false := by
  cases l with
  | nil => exact absurd rfl h
  | cons a t => rfl

/-- C9: a stored text message whose non-empty encrypted body fails to
decrypt is formatted with the visible placeholder as its content rather
than raising, and `getConversationHistory` always returns the full
fetched page with its total — formatting never drops a message or fails
the fetch. -/
theorem formatMessage_placeholder_and_history_total (st : ChatState)
    (cid page limit : Nat) (message : MongoMessage) (md : MessageMetadata)
    (enc : List Nat) (e : ChatError)
    (htype : message.messageType = MessageType.text)
    (henc : message.encryptedContent = some enc) (hne : enc ≠ [])
    (hfail : decryptMessage enc = Except.error e) :
    (formatMessage message md).content = some PLACEHOLDER ∧
    (getConversationHistory st cid page limit).1.length =
      (getMessagesByConversation st cid page limit).1.length ∧
    (getConversationHistory st cid page limit).2 =
      (getMessagesByConversation st cid page limit).2 := by
  refine ⟨?_, ?_, rfl⟩
  · simp [formatMessage, henc, htype, isEmpty_false_of_ne_nil hne, hfail]
  · unfold getConversationHistory
    simp [List.length_map]

/-- A stored text message with an undecryptable one-symbol body. -/
def corruptMsg : MongoMessage :=
  { mongoId := 0
    conversationId := 0
    senderId := bob
    receiverId := alice
    messageType := MessageType.text
    encryptedContent := some [5]
    mediaUrl := none
    mediaType := none
    mediaSize := none
    fileName := none
    thumbnailUrl := none
    replyToMessageId := none
    createdAt := 0 }

/-- Witness for C9 at a concrete corrupted ciphertext. -/
theorem formatMessage_placeholder_and_history_total_witness :
    (formatMessage corruptMsg metaRow).content = some PLACEHOLDER ∧
    (getConversationHistory stE 0 1 50).1.length =
      (getMessagesByConversation stE 0 1 50).1.length ∧
    (getConversationHistory stE 0 1 50).2 =
      (getMessagesByConversation stE 0 1 50).2 :=
  formatMessage_placeholder_and_history_total stE 0 1 50 corruptMsg metaRow [5]
    ChatError.decryptionFailed rfl rfl (by decide) (by decide)

/-! ## C10: the blocked-flag read swallows storage failures -/

/-- C10: `isConversationBlocked` never propagates a storage error —
when the underlying read fails it returns `false` — and consequently an
execution whose blocked-flag read fails lets `sendMessage` proceed past
the block check on a conversation whose stored blocked flag is `true`,
creating the message. -/
theorem isConversationBlocked_swallows_failure_and_send_proceeds :
    (∀ st cid, isConversationBlocked st cid true = false) ∧
    convBlocked.isBlocked = true ∧
    sendOk (sendMessage stBlocked 5 7 9 true textParams).1 = true ∧
    (sendMessage stBlocked 5 7 9 true textParams).2.metadata.length =
      stBlocked.metadata.length + 1 := by
  refine ⟨fun st cid => rfl, rfl, ?_, ?_⟩ <;>
  · have h := findOrCreate_bob_alice stBlocked
    simp only [sendMessage]
    rw [show textParams.senderId = bob from rfl,
      show textParams.receiverId = alice from rfl, h]
    decide

end PetsBackend
